import Mathlib

/-!
Shallow embedding of the two scripts of the `glancalyzer` repository
(`src/export_mlp_weights.py` and `src/inspect_model.py`) together with
proofs about the properties the specification states for them.

Conventions of the embedding:
* Python strings become `String`; the Python substring test `pat in s`
  becomes `substrOf pat s` (an executable infix-of test on character lists).
* A tensor becomes a `Tensor α`: an ordered shape together with the flat
  list of its entries in row-major order (the entry type `α` is kept
  abstract, since the scripts never transform entry values).
* A state dict (Python `dict` of parameter name to tensor, insertion
  ordered, keys unique) becomes an association list `StateDict α`.
* Python exceptions (`IndexError`, `ValueError`, `RuntimeError`) become
  `Except String`; `sys.exit(1)` and console output become explicit
  result values (`Outcome`, `Line`).
-/

namespace Glancalyzer

/-- Decidable test that the character list `p` is a prefix of `s`. -/
def prefOf : List Char → List Char → Bool
  | [], _ => true
  | _ :: _, [] => false
  | a :: as, b :: bs => a == b && prefOf as bs

/-- Decidable test that the character list `p` occurs contiguously inside `s`. -/
def infOf : List Char → List Char → Bool
  | p, [] => prefOf p []
  | p, c :: s => prefOf p (c :: s) || infOf p s

/-- Embedding of the Python substring test `pat in s`. -/
def substrOf (pat s : String) : Bool :=
  infOf pat.toList s.toList

/-- A tensor: its shape (ordered list of dimension sizes, as reported by
`param.shape`) and its entries flattened in row-major order.  The length
invariant is exactly what holds of every real tensor. -/
@[ext]
structure Tensor (α : Type) where
  shape : List Nat
  data : List α
  hlen : data.length = shape.prod

/-- A state dict: insertion-ordered mapping from parameter name to tensor,
as produced by `torch.load` of a `state_dict` checkpoint. -/
abbrev StateDict (α : Type) : Type := List (String × Tensor α)

/-- The type of the nested Python list produced by `tensor.tolist()` for a
tensor of the given shape: a scalar for shape `[]`, otherwise a list of
nested lists for the tail of the shape. -/
def Nested (α : Type) : List Nat → Type
  | [] => α
  | _ :: s => List (Nested α s)

/-- Build the `n` nested sublists of `tolist` output for an `n :: s`-shaped
tensor: chunk the row-major data into `n` runs of `s.prod` values and nest
each with the supplied nesting function for shape `s`. -/
def nestMany (α : Type) (s : List Nat)
    (nest : (l : List α) → l.length = s.prod → Nested α s) :
    (n : Nat) → (l : List α) → l.length = n * s.prod → List (Nested α s)
  | 0, _, _ => []
  | n + 1, l, h =>
    nest (l.take s.prod)
      (by rw [List.length_take, h, Nat.succ_mul]; exact Nat.min_eq_left (Nat.le_add_left _ _)) ::
    nestMany α s nest n (l.drop s.prod)
      (by rw [List.length_drop, h, Nat.succ_mul]; simp)

/-- Embedding of `tensor.tolist()`: nest flat row-major data according to
the tensor's shape.  Total because the data length always matches the shape. -/
def nestT (α : Type) : (s : List Nat) → (l : List α) → l.length = s.prod → Nested α s
  | [], l, h => l.head (by rintro rfl; simp at h)
  | n :: s, l, h => nestMany α s (nestT α s) n l (by rw [← List.prod_cons]; exact h)

/-- Flatten a nested list of the given shape back to flat row-major data:
the reshaping dictated by an exported entry's `shape` field. -/
def flattenN (α : Type) : (s : List Nat) → Nested α s → List α
  | [] => fun x => [x]
  | _ :: s => fun xs => ((xs : List (Nested α s)).map (flattenN α s)).flatten

/-- One value of the exported JSON mapping: the `data` (nested list from
`tolist`) and `shape` fields written by `export_weights`. -/
structure Entry (α : Type) where
  shape : List Nat
  data : Nested α shape

/-- The JSON value `export_weights` records for one parameter:
`'data': param.detach().cpu().numpy().tolist()`, `'shape': list(param.shape)`. -/
def mkEntry {α : Type} (t : Tensor α) : Entry α :=
  ⟨t.shape, nestT α t.shape t.data t.hlen⟩

/-- The name filter of the export loop: `'weight' in name or 'bias' in name`. -/
def expPred (n : String) : Bool :=
  substrOf "weight" n || substrOf "bias" n

/-- Embedding of the parameter-export loop of `export_weights`
(src/export_mlp_weights.py lines 95-103): iterate the named parameters and
record an entry for every name containing `weight` or `bias`.  Parameter
names of a model are unique, so the resulting association list is the
built dict in insertion order. -/
def export_weights_params {α : Type} (params : List (String × Tensor α)) :
    List (String × Entry α) :=
  params.filterMap (fun e => if expPred e.1 then some (e.1, mkEntry e.2) else none)

/-- Reshape an exported `data` nested list according to an exported `shape`
back into a tensor (the consumer-side reconstruction the spec describes). -/
def reconstructT {α : Type} (sh : List Nat) (nd : Nested α sh) : Option (Tensor α) :=
  if h : (flattenN α sh nd).length = sh.prod then some ⟨sh, flattenN α sh nd, h⟩ else none

/-- One layer description of the reconstructed `MLPHead` network. -/
inductive Layer
  | linear (inFeatures outFeatures : Nat)
  | relu
  | dropout (p : ℚ)
  | sigmoid
deriving DecidableEq

/-- The fixed `nn.Sequential` body of `MLPHead.__init__`
(src/export_mlp_weights.py lines 50-63). -/
def mkMLPHead (input_size num_classes : Nat) : List Layer :=
  [Layer.linear input_size 256, Layer.relu, Layer.dropout (3 / 10),
   Layer.linear 256 128, Layer.relu, Layer.dropout (3 / 10),
   Layer.linear 128 num_classes, Layer.sigmoid]

/-- Python truthiness of the optional inferred dimensions: `None` and `0`
are falsy, every other int is truthy. -/
def optTruthy : Option Nat → Bool
  | none => false
  | some n => n != 0

/-- The `num_classes` update of one iteration of the inference loop
(src/export_mlp_weights.py lines 40-44), with `IndexError` on a too-short
shape modelled as `Except.error`. -/
def stepNC (k : String) (sh : List Nat) (nc : Option Nat) : Except String (Option Nat) :=
  if substrOf "mlp.6.weight" k || substrOf "mlp.6.bias" k then
    if substrOf "weight" k then
      match sh[0]? with
      | some v => Except.ok (some v)
      | none => Except.error "IndexError: tuple index out of range"
    else if substrOf "bias" k && nc.isNone then
      match sh[0]? with
      | some v => Except.ok (some v)
      | none => Except.error "IndexError: tuple index out of range"
    else Except.ok nc
  else Except.ok nc

/-- The `input_size` update of one iteration of the inference loop
(src/export_mlp_weights.py line 45). -/
def stepIn (k : String) (sh : List Nat) (io : Option Nat) : Except String (Option Nat) :=
  if substrOf "mlp.0.weight" k then
    match sh[1]? with
    | some v => Except.ok (some v)
    | none => Except.error "IndexError: tuple index out of range"
  else Except.ok io

/-- The whole `for key in state_dict.keys()` inference loop; the
accumulator is the pair `(input_size, num_classes)`, both starting `None`. -/
def inferLoop {α : Type} : StateDict α → Option Nat × Option Nat →
    Except String (Option Nat × Option Nat)
  | [], acc => Except.ok acc
  | e :: rest, acc =>
    match stepNC e.1 e.2.shape acc.2 with
    | Except.error msg => Except.error msg
    | Except.ok nc' =>
      match stepIn e.1 e.2.shape acc.1 with
      | Except.error msg => Except.error msg
      | Except.ok io' => inferLoop rest (io', nc')

/-- The model-construction decision after the loop
(src/export_mlp_weights.py lines 65-70): `if input_size and num_classes:`
(Python truthiness) builds with both, `elif num_classes:` falls back to
input size 512, otherwise `raise ValueError(...)`. -/
def reconstructArch (io nc : Option Nat) : Except String (List Layer) :=
  if optTruthy io && optTruthy nc then
    Except.ok (mkMLPHead (io.getD 0) (nc.getD 0))
  else if optTruthy nc then
    Except.ok (mkMLPHead 512 (nc.getD 0))
  else
    Except.error "Could not infer model architecture from state_dict"

/-- The architecture-reconstruction branch of `get_model`
(src/export_mlp_weights.py lines 38-70): run the inference loop over the
state dict, then decide the architecture.  The result is the layer list of
the constructed `MLPHead` (loading the weights into it is the library call
`load_state_dict`, outside this heuristic). -/
def reconstruct {α : Type} (sd : StateDict α) : Except String (List Layer) :=
  match inferLoop sd (none, none) with
  | Except.error e => Except.error e
  | Except.ok r => reconstructArch r.1 r.2

/-- The surrounding `try`/`except` of `get_model` wraps any failure of the
state-dict branch into `RuntimeError(f"Could not load model: ...")`. -/
def get_model {α : Type} (sd : StateDict α) : Except String (List Layer) :=
  match reconstruct sd with
  | Except.ok m => Except.ok m
  | Except.error e => Except.error ("Could not load model: " ++ e)

/-- Pure mirror of one `input_size` update (the loop's value when no
exception is raised). -/
def inStepP (k : String) (sh : List Nat) (cur : Option Nat) : Option Nat :=
  if substrOf "mlp.0.weight" k then sh[1]? else cur

/-- Pure mirror of one `num_classes` update (the loop's value when no
exception is raised). -/
def ncStepP (k : String) (sh : List Nat) (cur : Option Nat) : Option Nat :=
  if substrOf "mlp.6.weight" k || substrOf "mlp.6.bias" k then
    if substrOf "weight" k then sh[0]?
    else if substrOf "bias" k && cur.isNone then sh[0]?
    else cur
  else cur

/-- Pure mirror of the `input_size` value after the whole loop. -/
def inFold {α : Type} (sd : StateDict α) (io : Option Nat) : Option Nat :=
  sd.foldl (fun cur e => inStepP e.1 e.2.shape cur) io

/-- Pure mirror of the `num_classes` value after the whole loop. -/
def ncFold {α : Type} (sd : StateDict α) (nc : Option Nat) : Option Nat :=
  sd.foldl (fun cur e => ncStepP e.1 e.2.shape cur) nc

/-- The key test selecting entries that set `input_size`: `'mlp.0.weight' in key`. -/
def m0p {α : Type} (e : String × Tensor α) : Bool :=
  substrOf "mlp.0.weight" e.1

/-- The key test selecting entries that may set `num_classes`:
`'mlp.6.weight' in key or 'mlp.6.bias' in key`. -/
def m6p {α : Type} (e : String × Tensor α) : Bool :=
  substrOf "mlp.6.weight" e.1 || substrOf "mlp.6.bias" e.1

/-- One modelled console line.  Each constructor stands for one `print`
statement of the scripts, carrying the interpolated values. -/
inductive Line
  | errNotFound (path : String)
  | inspecting (path : String)
  | loadingModel (path : String)
  | stateDictBanner
  | numLayers (n : Nat)
  | layerNamesHeader
  | layerEntry (key : String) (shape : List Nat)
  | moreLayers (n : Nat)
  | inferredClasses (n : Nat) (key : String)
  | needArch
  | updateConvert
deriving DecidableEq

/-- How a modelled script run ends. -/
inductive Outcome
  | exited (code : Nat)
  | returned (b : Bool)
  | finished
deriving DecidableEq

/-- Embedding of the entry of `inspect_model(model_path)`
(src/inspect_model.py lines 14-18): if the file does not exist, print the
error line and `sys.exit(1)`; otherwise print the `Inspecting` line and
continue with the rest of the function, abstracted as `rest`. -/
def inspect_model_m (existsFn : String → Bool) (path : String)
    (rest : List Line × Outcome) : List Line × Outcome :=
  if existsFn path then (Line.inspecting path :: rest.1, rest.2)
  else ([Line.errNotFound path], Outcome.exited 1)

/-- Embedding of the entry of `export_weights()`
(src/export_mlp_weights.py lines 79-86): same missing-file guard on the
hard-coded path, then the `Loading model` line and the rest of the run. -/
def export_weights_main (existsFn : String → Bool)
    (rest : List Line × Outcome) : List Line × Outcome :=
  if existsFn "composition_classifier.pt" then
    (Line.loadingModel "composition_classifier.pt" :: rest.1, rest.2)
  else ([Line.errNotFound "composition_classifier.pt"], Outcome.exited 1)

/-- The classifier-head probe of the state-dict branch of `inspect_model`
(src/inspect_model.py lines 45-50): the first key of the fixed list that is
present in the dict, with its shape (`for key in [...]: if key in data: ...
break`, guarded by the disjunction of the three membership tests). -/
def findClassKey (data : List (String × List Nat)) : Option (String × List Nat) :=
  ["classifier.weight", "fc.weight", "head.weight"].findSome?
    (fun k => (List.lookup k data).map (fun sh => (k, sh)))

/-- One per-entry line of the `Layer names:` listing. -/
def entryLine (e : String × List Nat) : Line :=
  Line.layerEntry e.1 e.2

/-- The banner, count and listing-header lines of the state-dict branch. -/
def idHeader (data : List (String × List Nat)) : List Line :=
  [Line.stateDictBanner, Line.numLayers data.length, Line.layerNamesHeader]

/-- The per-entry lines: the first ten entries with their shapes. -/
def idEntries (data : List (String × List Nat)) : List Line :=
  (data.take 10).map entryLine

/-- The remainder line, printed only when more than ten entries exist. -/
def idMore (data : List (String × List Nat)) : List Line :=
  if data.length > 10 then [Line.moreLayers (data.length - 10)] else []

/-- The closing hint lines of the state-dict branch. -/
def idFooter : List Line :=
  [Line.needArch, Line.updateConvert]

/-- Embedding of the state-dict branch of `inspect_model`
(src/inspect_model.py lines 34-53): banner, count, first ten entries with
shapes, remainder count when more than ten, optional inferred class count
from the first conventional head key present, closing hints, `return False`.
Accessing `shape[0]` of a zero-dimensional probe tensor raises `IndexError`,
modelled as the `Except.error` case. -/
def inspect_dict (data : List (String × List Nat)) : Except String (List Line × Bool) :=
  match findClassKey data with
  | none => Except.ok (idHeader data ++ idEntries data ++ idMore data ++ idFooter, false)
  | some (k, sh) =>
    match sh[0]? with
    | some n =>
      Except.ok
        (idHeader data ++ idEntries data ++ idMore data ++
          [Line.inferredClasses n k] ++ idFooter, false)
    | none => Except.error "IndexError: tuple index out of range"

/-- Recogniser for the per-entry lines of the listing. -/
def isLayerEntry : Line → Bool
  | Line.layerEntry _ _ => true
  | _ => false

/-- Recogniser for the remainder-count line. -/
def isMoreLayers : Line → Bool
  | Line.moreLayers _ => true
  | _ => false

/-- Recogniser for the inferred-class-count line. -/
def isInferred : Line → Bool
  | Line.inferredClasses _ _ => true
  | _ => false

/-- The input size of a reconstructed layer list (the first linear layer's
fan-in). -/
def firstLinearIn : List Layer → Option Nat
  | Layer.linear i _ :: _ => some i
  | _ => none

/-- A concrete all-zero integer tensor of a given shape, used for concrete
check inputs. -/
def constT (sh : List Nat) : Tensor Int :=
  ⟨sh, List.replicate sh.prod 0, by simp⟩

/-- Concrete state dict refuting claim C1 as literally stated: the first
layer's weight has `shape[1] = 0`, which Python truthiness treats as
`input_size` never inferred. -/
def sdC1 : StateDict Int :=
  [("mlp.0.weight", constT [4, 0]), ("mlp.6.weight", constT [2, 3])]

theorem prefOf_iff (p : List Char) : ∀ s : List Char, prefOf p s = true ↔ ∃ t, s = p ++ t := by
  induction p with
  | nil =>
    intro s
    simp [prefOf]
  | cons a as ih =>
    intro s
    cases s with
    | nil =>
      simp [prefOf]
    | cons b bs =>
      constructor
      · intro h
        rw [prefOf, Bool.and_eq_true, beq_iff_eq] at h
        obtain ⟨hab, h2⟩ := h
        obtain ⟨t, ht⟩ := (ih bs).mp h2
        exact ⟨t, by simp [hab, ht]⟩
      · rintro ⟨t, ht⟩
        have ht' : b :: bs = a :: (as ++ t) := by simpa using ht
        injection ht' with h1 h2
        rw [prefOf, Bool.and_eq_true, beq_iff_eq]
        exact ⟨h1.symm ▸ rfl, (ih bs).mpr ⟨t, h2⟩⟩

theorem infOf_iff (p : List Char) : ∀ s : List Char, infOf p s = true ↔ ∃ u v, s = u ++ p ++ v := by
  intro s
  induction s with
  | nil =>
    rw [infOf, prefOf_iff]
    constructor
    · rintro ⟨t, ht⟩
      exact ⟨[], t, ht⟩
    · rintro ⟨u, v, huv⟩
      cases u with
      | nil => exact ⟨v, by simpa using huv⟩
      | cons x xs => simp at huv
  | cons c cs ih =>
    rw [infOf, Bool.or_eq_true, prefOf_iff, ih]
    constructor
    · rintro (⟨t, ht⟩ | ⟨u, v, huv⟩)
      · exact ⟨[], t, by simpa using ht⟩
      · exact ⟨c :: u, v, by simp [huv]⟩
    · rintro ⟨u, v, huv⟩
      cases u with
      | nil =>
        exact Or.inl ⟨v, by simpa using huv⟩
      | cons x xs =>
        right
        have huv' : c :: cs = x :: (xs ++ p ++ v) := by simpa using huv
        injection huv' with h1 h2
        exact ⟨xs, v, h2⟩

theorem substrOf_iff (pat s : String) :
    substrOf pat s = true ↔ ∃ u v, s.toList = u ++ pat.toList ++ v := by
  exact infOf_iff pat.toList s.toList

/-- Substring containment is transitive: if `q` occurs in `p` and `p` occurs in `s`
then `q` occurs in `s`. -/
theorem substrOf_trans {q p s : String} (hqp : substrOf q p = true)
    (hps : substrOf p s = true) : substrOf q s = true := by
  rw [substrOf_iff] at hqp hps ⊢
  obtain ⟨u1, v1, h1⟩ := hqp
  obtain ⟨u2, v2, h2⟩ := hps
  refine ⟨u2 ++ u1, v1 ++ v2, ?_⟩
  rw [h2, h1]
  simp

theorem flattenN_nestMany (α : Type) (s : List Nat)
    (hrec : ∀ (l : List α) (h : l.length = s.prod), flattenN α s (nestT α s l h) = l) :
    ∀ (m : Nat) (l : List α) (h : l.length = m * s.prod),
      ((nestMany α s (nestT α s) m l h).map (flattenN α s)).flatten = l := by
  intro m
  induction m with
  | zero =>
    intro l h
    have : l = [] := List.eq_nil_of_length_eq_zero (by simpa using h)
    subst this
    rfl
  | succ m ihm =>
    intro l h
    rw [nestMany]
    rw [List.map_cons, List.flatten_cons, hrec, ihm]
    exact List.take_append_drop _ _

/-- Flattening the `tolist` nesting of row-major data restores the data
unchanged: the reshape round trip is the identity. -/
theorem flattenN_nestT (α : Type) :
    ∀ (s : List Nat) (l : List α) (h : l.length = s.prod),
      flattenN α s (nestT α s l h) = l := by
  intro s
  induction s with
  | nil =>
    intro l h
    obtain ⟨a, ha⟩ := List.length_eq_one.mp (by simpa using h)
    subst ha
    rfl
  | cons n s ih =>
    intro l h
    rw [nestT]
    show ((nestMany α s (nestT α s) n l _).map (flattenN α s)).flatten = l
    exact flattenN_nestMany α s ih n l _

theorem stepNC_ok {k : String} {sh : List Nat} {nc r : Option Nat}
    (h : stepNC k sh nc = Except.ok r) : r = ncStepP k sh nc := by
  rw [stepNC] at h
  rw [ncStepP]
  by_cases hA : (substrOf "mlp.6.weight" k || substrOf "mlp.6.bias" k) = true
  · rw [if_pos hA] at h ⊢
    by_cases hW : substrOf "weight" k = true
    · rw [if_pos hW] at h ⊢
      cases h0 : sh[0]? with
      | some v => rw [h0] at h; cases h; rfl
      | none => rw [h0] at h; cases h
    · rw [if_neg hW] at h ⊢
      by_cases hB : (substrOf "bias" k && nc.isNone) = true
      · rw [if_pos hB] at h ⊢
        cases h0 : sh[0]? with
        | some v => rw [h0] at h; cases h; rfl
        | none => rw [h0] at h; cases h
      · rw [if_neg hB] at h ⊢
        cases h; rfl
  · rw [if_neg hA] at h ⊢
    cases h; rfl

theorem stepIn_ok {k : String} {sh : List Nat} {io r : Option Nat}
    (h : stepIn k sh io = Except.ok r) : r = inStepP k sh io := by
  rw [stepIn] at h
  rw [inStepP]
  by_cases hM : substrOf "mlp.0.weight" k = true
  · rw [if_pos hM] at h ⊢
    cases h1 : sh[1]? with
    | some v => rw [h1] at h; cases h; rfl
    | none => rw [h1] at h; cases h
  · rw [if_neg hM] at h ⊢
    cases h; rfl

/-- If the inference loop completes without raising, its result is the pair
of pure folds. -/
theorem inferLoop_ok {α : Type} :
    ∀ (sd : StateDict α) (io nc : Option Nat) (r : Option Nat × Option Nat),
      inferLoop sd (io, nc) = Except.ok r → r = (inFold sd io, ncFold sd nc) := by
  intro sd
  induction sd with
  | nil =>
    intro io nc r h
    rw [inferLoop] at h
    cases h
    rfl
  | cons e rest ih =>
    intro io nc r h
    rw [inferLoop] at h
    cases hnc : stepNC e.1 e.2.shape nc with
    | error msg => rw [hnc] at h; cases h
    | ok nc' =>
      rw [hnc] at h
      cases hio : stepIn e.1 e.2.shape io with
      | error msg => rw [hio] at h; cases h
      | ok io' =>
        rw [hio] at h
        rw [ih io' nc' r h]
        simp only [inFold, ncFold, List.foldl_cons]
        rw [stepIn_ok hio, stepNC_ok hnc]

theorem stepNC_isOk {k : String} {sh : List Nat} (nc : Option Nat)
    (h : (substrOf "mlp.6.weight" k || substrOf "mlp.6.bias" k) = true → sh[0]?.isSome) :
    ∃ nc', stepNC k sh nc = Except.ok nc' := by
  rw [stepNC]
  by_cases hA : (substrOf "mlp.6.weight" k || substrOf "mlp.6.bias" k) = true
  · rw [if_pos hA]
    obtain ⟨v, hv⟩ := Option.isSome_iff_exists.mp (h hA)
    by_cases hW : substrOf "weight" k = true
    · rw [if_pos hW, hv]
      exact ⟨some v, rfl⟩
    · rw [if_neg hW]
      by_cases hB : (substrOf "bias" k && nc.isNone) = true
      · rw [if_pos hB, hv]
        exact ⟨some v, rfl⟩
      · rw [if_neg hB]
        exact ⟨nc, rfl⟩
  · rw [if_neg hA]
    exact ⟨nc, rfl⟩

theorem stepIn_isOk {k : String} {sh : List Nat} (io : Option Nat)
    (h : substrOf "mlp.0.weight" k = true → sh[1]?.isSome) :
    ∃ io', stepIn k sh io = Except.ok io' := by
  rw [stepIn]
  by_cases hM : substrOf "mlp.0.weight" k = true
  · rw [if_pos hM]
    obtain ⟨v, hv⟩ := Option.isSome_iff_exists.mp (h hM)
    rw [hv]
    exact ⟨some v, rfl⟩
  · rw [if_neg hM]
    exact ⟨io, rfl⟩

/-- The inference loop raises no exception as long as every `mlp.0.weight`
key has a two-dimensional shape and every `mlp.6` key a nonempty shape. -/
theorem inferLoop_isOk {α : Type} :
    ∀ (sd : StateDict α) (io nc : Option Nat),
      (∀ e ∈ sd, m0p e = true → e.2.shape[1]?.isSome) →
      (∀ e ∈ sd, m6p e = true → e.2.shape[0]?.isSome) →
      ∃ r, inferLoop sd (io, nc) = Except.ok r := by
  intro sd
  induction sd with
  | nil =>
    intro io nc _ _
    exact ⟨(io, nc), rfl⟩
  | cons e rest ih =>
    intro io nc h0 h6
    obtain ⟨nc', hnc⟩ := stepNC_isOk nc (h6 e (List.mem_cons_self e rest))
    obtain ⟨io', hio⟩ := stepIn_isOk io (h0 e (List.mem_cons_self e rest))
    obtain ⟨r, hr⟩ := ih io' nc'
      (fun x hx => h0 x (List.mem_cons_of_mem e hx))
      (fun x hx => h6 x (List.mem_cons_of_mem e hx))
    refine ⟨r, ?_⟩
    rw [inferLoop, hnc, hio]
    exact hr

/-- Entries whose key does not contain `mlp.0.weight` never change
`input_size`: the fold only depends on the matching entries. -/
theorem inFold_filter {α : Type} :
    ∀ (sd : StateDict α) (io : Option Nat), inFold sd io = inFold (sd.filter m0p) io := by
  intro sd
  induction sd with
  | nil =>
    intro io
    rfl
  | cons e rest ih =>
    intro io
    by_cases hm : m0p e = true
    · rw [inFold, List.foldl_cons, List.filter_cons, if_pos hm, inFold, List.foldl_cons]
      exact ih (inStepP e.1 e.2.shape io)
    · have hstep : inStepP e.1 e.2.shape io = io := by
        rw [inStepP, if_neg]
        simpa [m0p] using hm
      rw [inFold, List.foldl_cons, hstep, List.filter_cons, if_neg hm]
      exact ih io

/-- Entries whose key contains no `mlp.6` marker never change
`num_classes`: the fold only depends on the matching entries. -/
theorem ncFold_filter {α : Type} :
    ∀ (sd : StateDict α) (nc : Option Nat), ncFold sd nc = ncFold (sd.filter m6p) nc := by
  intro sd
  induction sd with
  | nil =>
    intro nc
    rfl
  | cons e rest ih =>
    intro nc
    by_cases hm : m6p e = true
    · rw [ncFold, List.foldl_cons, List.filter_cons, if_pos hm, ncFold, List.foldl_cons]
      exact ih (ncStepP e.1 e.2.shape nc)
    · have hstep : ncStepP e.1 e.2.shape nc = nc := by
        rw [ncStepP, if_neg]
        simpa [m6p] using hm
      rw [ncFold, List.foldl_cons, hstep, List.filter_cons, if_neg hm]
      exact ih nc

theorem optTruthy_iff {o : Option Nat} :
    optTruthy o = true ↔ ∃ n, o = some n ∧ n ≠ 0 := by
  cases o with
  | none => simp [optTruthy]
  | some n => simp [optTruthy]

/-- What a successful architecture decision can look like: `num_classes`
was truthy, and either both dimensions were truthy (model built from both)
or `input_size` was falsy (model built with the 512 default). -/
theorem reconstructArch_ok {io nc : Option Nat} {L : List Layer}
    (h : reconstructArch io nc = Except.ok L) :
    ∃ n, nc = some n ∧ n ≠ 0 ∧
      ((∃ i, io = some i ∧ i ≠ 0 ∧ L = mkMLPHead i n) ∨
       (optTruthy io = false ∧ L = mkMLPHead 512 n)) := by
  rw [reconstructArch] at h
  by_cases hio : optTruthy io = true
  · by_cases hnc : optTruthy nc = true
    · rw [if_pos (by rw [hio, hnc]; rfl)] at h
      obtain ⟨n, hn, hn0⟩ := optTruthy_iff.mp hnc
      obtain ⟨i, hi, hi0⟩ := optTruthy_iff.mp hio
      cases h
      exact ⟨n, hn, hn0, Or.inl ⟨i, hi, hi0, by rw [hi, hn]; rfl⟩⟩
    · rw [if_neg (by rw [Bool.and_eq_true]; rintro ⟨_, hc⟩; exact hnc hc),
         if_neg hnc] at h
      cases h
  · have hio' : optTruthy io = false := by
      cases hx : optTruthy io
      · rfl
      · exact absurd hx hio
    by_cases hnc : optTruthy nc = true
    · rw [if_neg (by rw [Bool.and_eq_true]; rintro ⟨hc, _⟩; exact hio hc),
         if_pos hnc] at h
      obtain ⟨n, hn, hn0⟩ := optTruthy_iff.mp hnc
      cases h
      exact ⟨n, hn, hn0, Or.inr ⟨hio', by rw [hn]; rfl⟩⟩
    · rw [if_neg (by rw [Bool.and_eq_true]; rintro ⟨hc, _⟩; exact hio hc),
         if_neg hnc] at h
      cases h

/-- One `num_classes` update over any `mlp.6` key whose tensor's first
dimension is `n` lands on `some n`, as long as the incoming value is
`none` or already `some n`: a weight key overwrites, a bias key either
fills the missing value or is ignored. -/
theorem ncStepP_sets {k : String} {sh : List Nat} {cur : Option Nat} {n : Nat}
    (hm : (substrOf "mlp.6.weight" k || substrOf "mlp.6.bias" k) = true)
    (hsh : sh[0]? = some n) (hcur : cur = none ∨ cur = some n) :
    ncStepP k sh cur = some n := by
  rw [ncStepP, if_pos hm]
  by_cases hw : substrOf "weight" k = true
  · rw [if_pos hw, hsh]
  · rw [if_neg hw]
    rcases hcur with rfl | rfl
    · have h6b : substrOf "mlp.6.bias" k = true := by
        have hor : substrOf "mlp.6.weight" k = true ∨ substrOf "mlp.6.bias" k = true := by
          simpa using hm
        rcases hor with h6w | h6b
        · exact absurd (substrOf_trans (by decide) h6w) hw
        · exact h6b
      have hb : substrOf "bias" k = true := substrOf_trans (by decide) h6b
      rw [if_pos (by rw [hb]; rfl), hsh]
    · rw [if_neg (by simp)]

/-- Over a nonempty run of `mlp.6` keys whose tensors all have first
dimension `n`, the `num_classes` fold ends on `some n`. -/
theorem ncFold_all {α : Type} {n : Nat} :
    ∀ l : StateDict α, (∀ e ∈ l, m6p e = true) → (∀ e ∈ l, e.2.shape[0]? = some n) →
      ∀ cur : Option Nat, cur = none ∨ cur = some n → l ≠ [] → ncFold l cur = some n := by
  intro l
  induction l with
  | nil =>
    intro _ _ cur _ hne
    exact absurd rfl hne
  | cons e rest ih =>
    intro hm hsh cur hcur _
    have hstep : ncStepP e.1 e.2.shape cur = some n :=
      ncStepP_sets (hm e (List.mem_cons_self e rest)) (hsh e (List.mem_cons_self e rest)) hcur
    simp only [ncFold, List.foldl_cons]
    rw [hstep]
    show ncFold rest (some n) = some n
    cases rest with
    | nil => rfl
    | cons r rs =>
      exact ih (fun x hx => hm x (List.mem_cons_of_mem e hx))
        (fun x hx => hsh x (List.mem_cons_of_mem e hx)) (some n) (Or.inr rfl) (by simp)

/-- Over a nonempty run of `mlp.0.weight` keys whose tensors all have
second dimension `i`, the `input_size` fold ends on `some i`. -/
theorem inFold_all {α : Type} {i : Nat} :
    ∀ l : StateDict α, (∀ e ∈ l, m0p e = true) → (∀ e ∈ l, e.2.shape[1]? = some i) →
      ∀ cur : Option Nat, l ≠ [] → inFold l cur = some i := by
  intro l
  induction l with
  | nil =>
    intro _ _ cur hne
    exact absurd rfl hne
  | cons e rest ih =>
    intro hm hsh cur _
    have hm' : substrOf "mlp.0.weight" e.1 = true := hm e (List.mem_cons_self e rest)
    have hstep : inStepP e.1 e.2.shape cur = some i := by
      rw [inStepP, if_pos hm', hsh e (List.mem_cons_self e rest)]
    simp only [inFold, List.foldl_cons]
    rw [hstep]
    show inFold rest (some i) = some i
    cases rest with
    | nil => rfl
    | cons r rs =>
      exact ih (fun x hx => hm x (List.mem_cons_of_mem e hx))
        (fun x hx => hsh x (List.mem_cons_of_mem e hx)) (some i) (by simp)

/-- C1 counterexample: the claim as literally stated fails on a state dict
whose `mlp.0.weight` tensor has `shape[1] = 0`.  Python truthiness
(`if input_size and num_classes:`) treats the inferred `0` as absent, so the
reconstructed model gets the default input size 512, not `shape[1] = 0`. -/
theorem C1_input_size_counterexample :
    m0p ("mlp.0.weight", constT [4, 0]) = true ∧
    ("mlp.0.weight", constT [4, 0]) ∈ sdC1 ∧
    (constT [4, 0]).shape[1]? = some 0 ∧
    reconstruct sdC1 = Except.ok (mkMLPHead 512 2) ∧
    firstLinearIn (mkMLPHead 512 2) = some 512 ∧
    (512 : Nat) ≠ 0 := by
  refine ⟨by decide, List.mem_cons_self _ _, by decide, ?_, rfl, by decide⟩
  rfl

/-- C1 (amended): for a state dict containing at least one key containing
`mlp.0.weight` — all such keys' tensors having second dimension `i` — and
at least one key containing `mlp.6.weight` or `mlp.6.bias` — all such keys'
tensors having first dimension `n` — with `i` and `n` nonzero, the
reconstructed model is built with input size `i` and `n` output classes.
The nonzero provisos are what Python truthiness forces; the agreement
hypotheses are the claim's singular "the ... tensor" reading, and cover the
standard checkpoint carrying both `mlp.6.weight` and `mlp.6.bias`. -/
theorem C1_inferred_dims (α : Type) (sd : StateDict α) (i n : Nat)
    (hex0 : ∃ e ∈ sd, m0p e = true)
    (hall0 : ∀ e ∈ sd, m0p e = true → e.2.shape[1]? = some i)
    (hi0 : i ≠ 0)
    (hex6 : ∃ e ∈ sd, m6p e = true)
    (hall6 : ∀ e ∈ sd, m6p e = true → e.2.shape[0]? = some n)
    (hn0 : n ≠ 0) :
    reconstruct sd = Except.ok (mkMLPHead i n) := by
  obtain ⟨r, hr⟩ := inferLoop_isOk sd none none
    (fun e he hm => by rw [hall0 e he hm]; rfl)
    (fun e he hm => by rw [hall6 e he hm]; rfl)
  have hreq := inferLoop_ok sd none none r hr
  subst hreq
  obtain ⟨e0, he0, hm0⟩ := hex0
  obtain ⟨e6, he6, hm6⟩ := hex6
  have hne0 : sd.filter m0p ≠ [] :=
    List.ne_nil_of_mem (List.mem_filter.mpr ⟨he0, hm0⟩)
  have hne6 : sd.filter m6p ≠ [] :=
    List.ne_nil_of_mem (List.mem_filter.mpr ⟨he6, hm6⟩)
  have hin : inFold sd none = some i := by
    rw [inFold_filter]
    exact inFold_all (sd.filter m0p)
      (fun x hx => (List.mem_filter.mp hx).2)
      (fun x hx => hall0 x (List.mem_filter.mp hx).1 (List.mem_filter.mp hx).2)
      none hne0
  have hnc : ncFold sd none = some n := by
    rw [ncFold_filter]
    exact ncFold_all (sd.filter m6p)
      (fun x hx => (List.mem_filter.mp hx).2)
      (fun x hx => hall6 x (List.mem_filter.mp hx).1 (List.mem_filter.mp hx).2)
      none (Or.inl rfl) hne6
  rw [reconstruct, hr]
  show reconstructArch (inFold sd none, ncFold sd none).1 (inFold sd none, ncFold sd none).2 =
    Except.ok (mkMLPHead i n)
  show reconstructArch (inFold sd none) (ncFold sd none) = Except.ok (mkMLPHead i n)
  rw [hin, hnc, reconstructArch, if_pos (by simp [optTruthy, hi0, hn0])]
  rfl

/-- Concrete check of the amended C1 on a standard checkpoint layout with
the first-layer weight and both the last-layer weight and bias. -/
theorem C1_inferred_dims_witness :
    reconstruct ([("mlp.0.weight", constT [4, 6]), ("mlp.6.weight", constT [5, 4]),
        ("mlp.6.bias", constT [5])] : StateDict Int) =
      Except.ok (mkMLPHead 6 5) :=
  C1_inferred_dims Int _ 6 5
    ⟨("mlp.0.weight", constT [4, 6]), List.mem_cons_self _ _, by decide⟩
    (by decide) (by decide)
    ⟨("mlp.6.weight", constT [5, 4]),
      List.mem_cons_of_mem _ (List.mem_cons_self _ _), by decide⟩
    (by decide) (by decide)

/-- C4: every architecture the reconstruction branch ever returns is the
fixed sequence Linear(i, 256), ReLU, Dropout(0.3), Linear(256, 128), ReLU,
Dropout(0.3), Linear(128, n), Sigmoid: widths 256 and 128 and rate 0.3 are
hard-coded, never taken from the state dict. -/
theorem C4_fixed_topology (α : Type) (sd : StateDict α) (L : List Layer)
    (h : reconstruct sd = Except.ok L) :
    ∃ i n, L = [Layer.linear i 256, Layer.relu, Layer.dropout (3 / 10),
      Layer.linear 256 128, Layer.relu, Layer.dropout (3 / 10),
      Layer.linear 128 n, Layer.sigmoid] := by
  rw [reconstruct] at h
  cases hl : inferLoop sd (none, none) with
  | error e => rw [hl] at h; cases h
  | ok r =>
    rw [hl] at h
    have h' : reconstructArch r.1 r.2 = Except.ok L := h
    obtain ⟨n, _, _, hcase⟩ := reconstructArch_ok h'
    rcases hcase with ⟨i, _, _, hL⟩ | ⟨_, hL⟩
    · exact ⟨i, n, hL⟩
    · exact ⟨512, n, hL⟩

/-- Concrete check of C4 on a fully inferable state dict. -/
theorem C4_fixed_topology_witness :
    ∃ i n, mkMLPHead 7 5 = [Layer.linear i 256, Layer.relu, Layer.dropout (3 / 10),
      Layer.linear 256 128, Layer.relu, Layer.dropout (3 / 10),
      Layer.linear 128 n, Layer.sigmoid] :=
  C4_fixed_topology Int [("mlp.0.weight", constT [2, 7]), ("mlp.6.weight", constT [5, 2])]
    (mkMLPHead 7 5) (by rfl)

/-- C5: whenever reconstruction succeeds on a state dict with no key
containing `mlp.0.weight`, the model is built with the default input
size 512. -/
theorem C5_default_input_512 (α : Type) (sd : StateDict α) (L : List Layer)
    (hnokey : ∀ e ∈ sd, m0p e = false)
    (h : reconstruct sd = Except.ok L) :
    ∃ n, L = mkMLPHead 512 n := by
  rw [reconstruct] at h
  cases hl : inferLoop sd (none, none) with
  | error e => rw [hl] at h; cases h
  | ok r =>
    rw [hl] at h
    have h' : reconstructArch r.1 r.2 = Except.ok L := h
    have hr := inferLoop_ok sd none none r hl
    have hfil : sd.filter m0p = [] :=
      List.filter_eq_nil_iff.mpr (fun e he => by simp [hnokey e he])
    have h1 : r.1 = none := by
      rw [hr]
      show inFold sd none = none
      rw [inFold_filter, hfil]
      rfl
    obtain ⟨n, _, _, hcase⟩ := reconstructArch_ok h'
    rcases hcase with ⟨i, hi, _, _⟩ | ⟨_, hL⟩
    · rw [h1] at hi; cases hi
    · exact ⟨n, hL⟩

/-- Concrete check of C5 on a state dict with only the last-layer key. -/
theorem C5_default_input_512_witness :
    ∃ n, mkMLPHead 512 3 = mkMLPHead 512 n :=
  C5_default_input_512 Int [("c.mlp.6.weight", constT [3, 8])] (mkMLPHead 512 3)
    (by decide) (by rfl)

/-- C6: a state dict with no `mlp.0.weight` key and no `mlp.6.weight` or
`mlp.6.bias` key makes reconstruction fail with the explicit
`Could not infer model architecture` error (wrapped by `get_model` into its
`Could not load model` RuntimeError), never returning a model. -/
theorem C6_no_keys_error (α : Type) (sd : StateDict α)
    (h0 : ∀ e ∈ sd, m0p e = false) (h6 : ∀ e ∈ sd, m6p e = false) :
    reconstruct sd = Except.error "Could not infer model architecture from state_dict" ∧
    get_model sd =
      Except.error "Could not load model: Could not infer model architecture from state_dict" := by
  obtain ⟨r, hr⟩ := inferLoop_isOk sd none none
    (fun e he hm => absurd hm (by simp [h0 e he]))
    (fun e he hm => absurd hm (by simp [h6 e he]))
  have hre := inferLoop_ok sd none none r hr
  have hfil0 : sd.filter m0p = [] :=
    List.filter_eq_nil_iff.mpr (fun e he => by simp [h0 e he])
  have hfil6 : sd.filter m6p = [] :=
    List.filter_eq_nil_iff.mpr (fun e he => by simp [h6 e he])
  have h1 : r = (none, none) := by
    rw [hre, inFold_filter, ncFold_filter, hfil0, hfil6]
    rfl
  have hrec : reconstruct sd =
      Except.error "Could not infer model architecture from state_dict" := by
    rw [reconstruct, hr, h1]
    rfl
  refine ⟨hrec, ?_⟩
  rw [get_model, hrec]
  rfl

/-- Concrete check of C6 on a state dict with an unrelated key. -/
theorem C6_no_keys_error_witness :
    reconstruct ([("hello", constT [1])] : StateDict Int) =
      Except.error "Could not infer model architecture from state_dict" ∧
    get_model ([("hello", constT [1])] : StateDict Int) =
      Except.error "Could not load model: Could not infer model architecture from state_dict" :=
  C6_no_keys_error Int _ (by decide) (by decide)

/-- C9: even when the input size is inferable (an `mlp.0.weight` key with a
two-dimensional shape exists), a state dict with no `mlp.6.weight` or
`mlp.6.bias` key still fails with the same `Could not infer` error: the
inferred input size alone never produces a model. -/
theorem C9_input_only_error (α : Type) (sd : StateDict α)
    (_hex : ∃ e ∈ sd, m0p e = true)
    (h6 : ∀ e ∈ sd, m6p e = false)
    (hsh : ∀ e ∈ sd, m0p e = true → e.2.shape[1]?.isSome) :
    reconstruct sd = Except.error "Could not infer model architecture from state_dict" ∧
    get_model sd =
      Except.error "Could not load model: Could not infer model architecture from state_dict" := by
  obtain ⟨r, hr⟩ := inferLoop_isOk sd none none hsh
    (fun e he hm => absurd hm (by simp [h6 e he]))
  have hre := inferLoop_ok sd none none r hr
  have hfil6 : sd.filter m6p = [] :=
    List.filter_eq_nil_iff.mpr (fun e he => by simp [h6 e he])
  have h2 : r.2 = none := by
    rw [hre]
    show ncFold sd none = none
    rw [ncFold_filter, hfil6]
    rfl
  have hrec : reconstruct sd =
      Except.error "Could not infer model architecture from state_dict" := by
    rw [reconstruct, hr]
    show reconstructArch r.1 r.2 = _
    rw [h2, reconstructArch, if_neg (by simp [optTruthy]), if_neg (by simp [optTruthy])]
  refine ⟨hrec, ?_⟩
  rw [get_model, hrec]
  rfl

/-- Concrete check of C9 on a state dict with only the first-layer key. -/
theorem C9_input_only_error_witness :
    reconstruct ([("mlp.0.weight", constT [2, 3])] : StateDict Int) =
      Except.error "Could not infer model architecture from state_dict" ∧
    get_model ([("mlp.0.weight", constT [2, 3])] : StateDict Int) =
      Except.error "Could not load model: Could not infer model architecture from state_dict" :=
  C9_input_only_error Int _
    ⟨("mlp.0.weight", constT [2, 3]), List.mem_cons_self _ _, by decide⟩
    (by decide) (by decide)

/-- C10: when the state dict has both an `mlp.6.weight` key and an
`mlp.6.bias` key (in either order), the inferred `num_classes` is the
weight tensor's first dimension: the weight assignment overwrites
unconditionally while the bias assignment only fills in a missing value. -/
theorem C10_weight_wins (α : Type) (sd : StateDict α) (r : Option Nat × Option Nat)
    (kw kb : String) (tw tb : Tensor α) (n : Nat)
    (hloop : inferLoop sd (none, none) = Except.ok r)
    (hfil : sd.filter m6p = [(kw, tw), (kb, tb)] ∨ sd.filter m6p = [(kb, tb), (kw, tw)])
    (hw6 : substrOf "mlp.6.weight" kw = true)
    (hb6 : substrOf "mlp.6.bias" kb = true)
    (hbw : substrOf "weight" kb = false)
    (hn : tw.shape[0]? = some n) :
    r.2 = some n := by
  have hw : substrOf "weight" kw = true := substrOf_trans (by decide) hw6
  have hr := inferLoop_ok sd none none r hloop
  have h2 : r.2 = ncFold sd none := by rw [hr]
  rw [h2, ncFold_filter]
  rcases hfil with hf | hf
  · rw [hf]
    show ncStepP kb tb.shape (ncStepP kw tw.shape none) = some n
    have s1 : ncStepP kw tw.shape none = some n := by
      rw [ncStepP, if_pos (by rw [hw6]; rfl), if_pos hw, hn]
    rw [s1, ncStepP, if_pos (by rw [hb6]; simp), if_neg (by simp [hbw]),
      if_neg (by simp)]
  · rw [hf]
    show ncStepP kw tw.shape (ncStepP kb tb.shape none) = some n
    generalize ncStepP kb tb.shape none = cur
    rw [ncStepP, if_pos (by rw [hw6]; rfl), if_pos hw, hn]

/-- Concrete check of C10 with the bias key listed before the weight key. -/
theorem C10_weight_wins_witness :
    (((none, some 9)) : Option Nat × Option Nat).2 = some 9 :=
  C10_weight_wins Int
    [("a.mlp.6.bias", constT [7]), ("b.mlp.6.weight", constT [9, 7])]
    ((none, some 9)) "b.mlp.6.weight" "a.mlp.6.bias" (constT [9, 7]) (constT [7]) 9
    (by rfl) (Or.inr (by rfl)) (by decide) (by decide) (by decide) (by decide)

/-- The exported keys are exactly the weight/bias parameter names, in
order. -/
theorem export_keys (α : Type) :
    ∀ params : List (String × Tensor α),
      (export_weights_params params).map Prod.fst =
      (params.filter (fun e => expPred e.1)).map Prod.fst := by
  intro params
  induction params with
  | nil => rfl
  | cons e rest ih =>
    simp only [export_weights_params] at ih ⊢
    by_cases hp : expPred e.1 = true
    · simp only [List.filterMap_cons, List.filter_cons, hp, if_true, List.map_cons]
      rw [ih]
    · have hp' : expPred e.1 = false := by
        cases hx : expPred e.1
        · rfl
        · exact absurd hx hp
      simp only [List.filterMap_cons, List.filter_cons, hp', Bool.false_eq_true, if_false]
      exact ih

/-- C2: for parameters with unique names (as `named_parameters` yields),
the export mapping has pairwise distinct keys, contains the entry
`(name, mkEntry t)` for every parameter whose name contains `weight` or
`bias` with the entry's `shape` equal to the tensor's shape, and contains
only entries arising that way: names containing neither substring are
omitted. -/
theorem C2_export_entries (α : Type) (params : List (String × Tensor α))
    (hnodup : (params.map Prod.fst).Nodup) :
    ((export_weights_params params).map Prod.fst).Nodup ∧
    (∀ nm t, (nm, t) ∈ params → expPred nm = true →
      (nm, mkEntry t) ∈ export_weights_params params ∧ (mkEntry t).shape = t.shape) ∧
    (∀ nm en, (nm, en) ∈ export_weights_params params →
      expPred nm = true ∧ ∃ t, (nm, t) ∈ params ∧ en = mkEntry t) := by
  refine ⟨?_, ?_, ?_⟩
  · rw [export_keys]
    exact ((List.filter_sublist _).map Prod.fst).nodup hnodup
  · intro nm t hmem hpred
    refine ⟨?_, rfl⟩
    rw [export_weights_params]
    exact List.mem_filterMap.mpr ⟨(nm, t), hmem, by simp [hpred]⟩
  · intro nm en hmem
    obtain ⟨a, ha, hfa⟩ := List.mem_filterMap.mp hmem
    by_cases hp : expPred a.1 = true
    · rw [if_pos hp] at hfa
      have hpair : (a.1, mkEntry a.2) = (nm, en) := Option.some.inj hfa
      have h1 : a.1 = nm := congrArg Prod.fst hpair
      have h2 : mkEntry a.2 = en := congrArg Prod.snd hpair
      refine ⟨h1 ▸ hp, a.2, ?_, h2.symm⟩
      rw [← h1]
      exact ha
    · rw [if_neg hp] at hfa
      cases hfa

/-- Concrete check of C2 on a two-parameter model with one exportable name. -/
theorem C2_export_entries_witness :
    ((export_weights_params
        ([("l.bias", constT [2]), ("running_mean", constT [3])] : List (String × Tensor Int))).map
      Prod.fst).Nodup ∧
    (∀ nm t, (nm, t) ∈ ([("l.bias", constT [2]), ("running_mean", constT [3])] :
        List (String × Tensor Int)) → expPred nm = true →
      (nm, mkEntry t) ∈ export_weights_params
        ([("l.bias", constT [2]), ("running_mean", constT [3])] : List (String × Tensor Int)) ∧
      (mkEntry t).shape = t.shape) ∧
    (∀ nm en, (nm, en) ∈ export_weights_params
        ([("l.bias", constT [2]), ("running_mean", constT [3])] : List (String × Tensor Int)) →
      expPred nm = true ∧ ∃ t, (nm, t) ∈ ([("l.bias", constT [2]), ("running_mean", constT [3])] :
        List (String × Tensor Int)) ∧ en = mkEntry t) :=
  C2_export_entries Int [("l.bias", constT [2]), ("running_mean", constT [3])] (by decide)

/-- C3: every exported entry carries the parameter tensor verbatim:
its `shape` is the tensor's shape, flattening its nested `data` according
to that shape restores the tensor's row-major values exactly, and the
reshaping reconstruction yields the original tensor. -/
theorem C3_roundtrip (α : Type) (params : List (String × Tensor α)) (nm : String) (en : Entry α)
    (hmem : (nm, en) ∈ export_weights_params params) :
    ∃ t, (nm, t) ∈ params ∧ en.shape = t.shape ∧
      flattenN α en.shape en.data = t.data ∧
      reconstructT en.shape en.data = some t := by
  obtain ⟨a, ha, hfa⟩ := List.mem_filterMap.mp hmem
  by_cases hp : expPred a.1 = true
  · rw [if_pos hp] at hfa
    have hpair : (a.1, mkEntry a.2) = (nm, en) := Option.some.inj hfa
    have h1 : a.1 = nm := congrArg Prod.fst hpair
    have h2 : mkEntry a.2 = en := congrArg Prod.snd hpair
    refine ⟨a.2, ?_, ?_, ?_, ?_⟩
    · rw [← h1]
      exact ha
    · rw [← h2]
      rfl
    · rw [← h2]
      show flattenN α a.2.shape (nestT α a.2.shape a.2.data a.2.hlen) = a.2.data
      exact flattenN_nestT α a.2.shape a.2.data a.2.hlen
    · rw [← h2]
      show reconstructT a.2.shape (nestT α a.2.shape a.2.data a.2.hlen) = some a.2
      rw [reconstructT]
      split
      · next hc =>
        exact congrArg some (Tensor.ext rfl (flattenN_nestT α a.2.shape a.2.data a.2.hlen))
      · next hc =>
        exact absurd
          (by rw [flattenN_nestT α a.2.shape a.2.data a.2.hlen]; exact a.2.hlen) hc
  · rw [if_neg hp] at hfa
    cases hfa

/-- Concrete check of C3 on a single exported weight matrix. -/
theorem C3_roundtrip_witness :
    ∃ t, ("lin.weight", t) ∈ ([("lin.weight", constT [2, 2])] : List (String × Tensor Int)) ∧
      (mkEntry (constT [2, 2])).shape = t.shape ∧
      flattenN Int (mkEntry (constT [2, 2])).shape (mkEntry (constT [2, 2])).data = t.data ∧
      reconstructT (mkEntry (constT [2, 2])).shape (mkEntry (constT [2, 2])).data = some t :=
  C3_roundtrip Int [("lin.weight", constT [2, 2])] "lin.weight" (mkEntry (constT [2, 2]))
    (List.mem_cons_self _ _)

theorem filter_isLayerEntry_map (l : List (String × List Nat)) :
    (l.map entryLine).filter isLayerEntry = l.map entryLine := by
  induction l with
  | nil => rfl
  | cons e rest ih => simp [entryLine, isLayerEntry, ih]

theorem filter_isMoreLayers_map (l : List (String × List Nat)) :
    (l.map entryLine).filter isMoreLayers = [] := by
  induction l with
  | nil => rfl
  | cons e rest ih => simp [entryLine, isMoreLayers, ih]

theorem filter_isInferred_map (l : List (String × List Nat)) :
    (l.map entryLine).filter isInferred = [] := by
  induction l with
  | nil => rfl
  | cons e rest ih => simp [entryLine, isInferred, ih]

theorem filter_isLayerEntry_idMore (data : List (String × List Nat)) :
    (idMore data).filter isLayerEntry = [] := by
  rw [idMore]
  split
  · simp [isLayerEntry]
  · rfl

theorem filter_isMoreLayers_idMore (data : List (String × List Nat)) :
    (idMore data).filter isMoreLayers = idMore data := by
  rw [idMore]
  split
  · simp [isMoreLayers]
  · rfl

theorem filter_isInferred_idMore (data : List (String × List Nat)) :
    (idMore data).filter isInferred = [] := by
  rw [idMore]
  split
  · simp [isInferred]
  · rfl

/-- If any of the three conventional head keys is in the dict, the probe
finds one. -/
theorem findClassKey_isSome (data : List (String × List Nat))
    (h : (List.lookup "classifier.weight" data).isSome ∨
      (List.lookup "fc.weight" data).isSome ∨ (List.lookup "head.weight" data).isSome) :
    (findClassKey data).isSome := by
  rw [findClassKey]
  cases h1 : List.lookup "classifier.weight" data with
  | some sh => simp [List.findSome?, h1]
  | none =>
    cases h2 : List.lookup "fc.weight" data with
    | some sh => simp [List.findSome?, h1, h2]
    | none =>
      cases h3 : List.lookup "head.weight" data with
      | some sh => simp [List.findSome?, h1, h2, h3]
      | none =>
        rcases h with h | h | h
        · rw [h1] at h
          cases h
        · rw [h2] at h
          cases h
        · rw [h3] at h
          cases h

/-- C7: when the checkpoint file is missing, both scripts print the
`not found` error line as their only output and exit with status 1. -/
theorem C7_missing_file_exit (existsFn : String → Bool) (path : String)
    (r1 r2 : List Line × Outcome)
    (h1 : existsFn path = false)
    (h2 : existsFn "composition_classifier.pt" = false) :
    inspect_model_m existsFn path r1 = ([Line.errNotFound path], Outcome.exited 1) ∧
    export_weights_main existsFn r2 =
      ([Line.errNotFound "composition_classifier.pt"], Outcome.exited 1) := by
  constructor
  · rw [inspect_model_m, h1]
    rfl
  · rw [export_weights_main, h2]
    rfl

/-- Concrete check of C7 with a file system containing no file at all. -/
theorem C7_missing_file_exit_witness :
    inspect_model_m (fun _ => false) "composition_classifier.pt" ([], Outcome.finished) =
      ([Line.errNotFound "composition_classifier.pt"], Outcome.exited 1) ∧
    export_weights_main (fun _ => false) ([], Outcome.finished) =
      ([Line.errNotFound "composition_classifier.pt"], Outcome.exited 1) :=
  C7_missing_file_exit (fun _ => false) "composition_classifier.pt"
    ([], Outcome.finished) ([], Outcome.finished) (by rfl) (by rfl)

/-- C8: on the dict branch the inspector returns `False`, prints the entry
count, prints exactly the first ten entries with their shapes, prints the
remainder count exactly when more than ten entries exist, and, whenever one
of the conventional head keys is present, prints the inferred class count
taken from that tensor's first dimension. -/
theorem C8_dict_branch (data : List (String × List Nat)) (out : List Line) (b : Bool)
    (h : inspect_dict data = Except.ok (out, b)) :
    b = false ∧
    Line.numLayers data.length ∈ out ∧
    out.filter isLayerEntry = (data.take 10).map entryLine ∧
    out.filter isMoreLayers =
      (if 10 < data.length then [Line.moreLayers (data.length - 10)] else []) ∧
    (∀ k sh, findClassKey data = some (k, sh) →
      ∃ n, sh[0]? = some n ∧ out.filter isInferred = [Line.inferredClasses n k]) ∧
    (findClassKey data = none → out.filter isInferred = []) ∧
    ((List.lookup "classifier.weight" data).isSome ∨
      (List.lookup "fc.weight" data).isSome ∨ (List.lookup "head.weight" data).isSome →
      (findClassKey data).isSome) := by
  rw [inspect_dict] at h
  cases hf : findClassKey data with
  | none =>
    rw [hf] at h
    have h' : (Except.ok (idHeader data ++ idEntries data ++ idMore data ++ idFooter, false) :
        Except String (List Line × Bool)) = Except.ok (out, b) := h
    cases h'
    refine ⟨rfl, ?_, ?_, ?_, ?_, ?_, ?_⟩
    · simp [idHeader]
    · simp only [List.filter_append, filter_isLayerEntry_idMore, idEntries,
        filter_isLayerEntry_map]
      simp [idHeader, idFooter, isLayerEntry]
    · simp only [List.filter_append, filter_isMoreLayers_idMore, idEntries,
        filter_isMoreLayers_map]
      simp [idHeader, idFooter, isMoreLayers, idMore]
    · intro k sh hks
      cases hks
    · intro _
      simp only [List.filter_append, filter_isInferred_idMore, idEntries,
        filter_isInferred_map]
      simp [idHeader, idFooter, isInferred]
    · intro hd
      have hx := findClassKey_isSome data hd
      rw [hf] at hx
      exact hx
  | some p =>
    obtain ⟨k, sh⟩ := p
    rw [hf] at h
    have h' : (match sh[0]? with
        | some n =>
          Except.ok (idHeader data ++ idEntries data ++ idMore data ++
            [Line.inferredClasses n k] ++ idFooter, false)
        | none =>
          (Except.error "IndexError: tuple index out of range" :
            Except String (List Line × Bool))) =
        Except.ok (out, b) := h
    cases h0 : sh[0]? with
    | none =>
      rw [h0] at h'
      cases h'
    | some n0 =>
      rw [h0] at h'
      cases h'
      refine ⟨rfl, ?_, ?_, ?_, ?_, ?_, fun _ => rfl⟩
      · simp [idHeader]
      · simp only [List.filter_append, filter_isLayerEntry_idMore, idEntries,
          filter_isLayerEntry_map]
        simp [idHeader, idFooter, isLayerEntry]
      · simp only [List.filter_append, filter_isMoreLayers_idMore, idEntries,
          filter_isMoreLayers_map]
        simp [idHeader, idFooter, isMoreLayers, idMore]
      · intro k' sh' hks
        have hpair : (k, sh) = (k', sh') := Option.some.inj hks
        have hk : k = k' := congrArg Prod.fst hpair
        have hs : sh = sh' := congrArg Prod.snd hpair
        refine ⟨n0, by rw [← hs]; exact h0, ?_⟩
        rw [← hk]
        simp only [List.filter_append, filter_isInferred_idMore, idEntries,
          filter_isInferred_map]
        simp [idHeader, idFooter, isInferred]
      · intro hnone
        cases hnone

/-- Concrete check of C8 on a two-entry dict containing `classifier.weight`. -/
theorem C8_dict_branch_witness :
    false = false ∧
    Line.numLayers ([("classifier.weight", [3, 5]), ("conv1", [2])] :
      List (String × List Nat)).length ∈
      (idHeader [("classifier.weight", [3, 5]), ("conv1", [2])] ++
        idEntries [("classifier.weight", [3, 5]), ("conv1", [2])] ++
        idMore [("classifier.weight", [3, 5]), ("conv1", [2])] ++
        [Line.inferredClasses 3 "classifier.weight"] ++ idFooter) ∧
    (idHeader [("classifier.weight", [3, 5]), ("conv1", [2])] ++
        idEntries [("classifier.weight", [3, 5]), ("conv1", [2])] ++
        idMore [("classifier.weight", [3, 5]), ("conv1", [2])] ++
        [Line.inferredClasses 3 "classifier.weight"] ++ idFooter).filter isLayerEntry =
      (([("classifier.weight", [3, 5]), ("conv1", [2])] :
        List (String × List Nat)).take 10).map entryLine ∧
    (idHeader [("classifier.weight", [3, 5]), ("conv1", [2])] ++
        idEntries [("classifier.weight", [3, 5]), ("conv1", [2])] ++
        idMore [("classifier.weight", [3, 5]), ("conv1", [2])] ++
        [Line.inferredClasses 3 "classifier.weight"] ++ idFooter).filter isMoreLayers =
      (if 10 < ([("classifier.weight", [3, 5]), ("conv1", [2])] :
        List (String × List Nat)).length then
        [Line.moreLayers (([("classifier.weight", [3, 5]), ("conv1", [2])] :
          List (String × List Nat)).length - 10)]
      else []) ∧
    (∀ k sh, findClassKey [("classifier.weight", [3, 5]), ("conv1", [2])] = some (k, sh) →
      ∃ n, sh[0]? = some n ∧
        (idHeader [("classifier.weight", [3, 5]), ("conv1", [2])] ++
          idEntries [("classifier.weight", [3, 5]), ("conv1", [2])] ++
          idMore [("classifier.weight", [3, 5]), ("conv1", [2])] ++
          [Line.inferredClasses 3 "classifier.weight"] ++ idFooter).filter isInferred =
        [Line.inferredClasses n k]) ∧
    (findClassKey [("classifier.weight", [3, 5]), ("conv1", [2])] = none →
      (idHeader [("classifier.weight", [3, 5]), ("conv1", [2])] ++
        idEntries [("classifier.weight", [3, 5]), ("conv1", [2])] ++
        idMore [("classifier.weight", [3, 5]), ("conv1", [2])] ++
        [Line.inferredClasses 3 "classifier.weight"] ++ idFooter).filter isInferred = []) ∧
    ((List.lookup "classifier.weight"
        ([("classifier.weight", [3, 5]), ("conv1", [2])] : List (String × List Nat))).isSome ∨
      (List.lookup "fc.weight"
        ([("classifier.weight", [3, 5]), ("conv1", [2])] : List (String × List Nat))).isSome ∨
      (List.lookup "head.weight"
        ([("classifier.weight", [3, 5]), ("conv1", [2])] : List (String × List Nat))).isSome →
      (findClassKey [("classifier.weight", [3, 5]), ("conv1", [2])]).isSome) :=
  C8_dict_branch [("classifier.weight", [3, 5]), ("conv1", [2])]
    (idHeader [("classifier.weight", [3, 5]), ("conv1", [2])] ++
      idEntries [("classifier.weight", [3, 5]), ("conv1", [2])] ++
      idMore [("classifier.weight", [3, 5]), ("conv1", [2])] ++
      [Line.inferredClasses 3 "classifier.weight"] ++ idFooter) false (by rfl)

end Glancalyzer
